import Mathlib

/-
Shallow embedding of the near-Earth-object data pipeline:
  - models.py   : NearEarthObject, CloseApproach, their construction,
                  display and serialization;
  - extract.py  : load_approaches (schema + rows ingestion);
  - write.py    : write_to_csv, write_to_json.

Python conventions are embedded as follows: dictionaries of string keys
are association lists with in-place update; Python exceptions
(KeyError, ValueError, IndexError, and the attribute dereference failure
on a missing linked object) are the constructors of the `Err` type and
fallible code returns `Except Err`; Python floats are rationals (the
code only parses, stores and re-emits these values, it never does float
arithmetic on them), and `float('nan')`, the unknown-diameter sentinel,
is the `none` of an `Option ℚ`.
-/

/-! ### Small numeric/string infrastructure -/

/-- Value of a decimal digit character, `none` for a non-digit. -/
def digitVal? (c : Char) : Option Nat :=
  if '0' ≤ c ∧ c ≤ '9' then some (c.toNat - 48) else none

/-- Read a run of decimal digits, accumulating; fails on a non-digit. -/
def readDigitsAux : List Char → Nat → Option Nat
  | [], acc => some acc
  | c :: cs, acc =>
    match digitVal? c with
    | some d => readDigitsAux cs (acc * 10 + d)
    | none => none

/-- Read a nonempty run of decimal digits as a natural number. -/
def readNat? (cs : List Char) : Option Nat :=
  match cs with
  | [] => none
  | _ => readDigitsAux cs 0

/-- Split a character list at the first dot, if any. -/
def splitDot : List Char → List Char × Option (List Char)
  | [] => ([], none)
  | c :: cs =>
    if c = '.' then ([], some cs)
    else
      let (a, b) := splitDot cs
      (c :: a, b)

/-- Split a character list on a separator character (like Python `str.split`
with an explicit separator: `n` separators give `n + 1` pieces). -/
def splitChar (sep : Char) : List Char → List (List Char)
  | [] => [[]]
  | c :: cs =>
    let r := splitChar sep cs
    if c = sep then [] :: r
    else
      match r with
      | [] => [[c]]
      | h :: t => (c :: h) :: t

/-- Sign, integer part, fractional part, and fractional-digit count of a
plain decimal literal; `none` when the text is not a decimal literal.
This is the discrete part of Python `float(...)` on the decimal strings
this data set carries. -/
def parseDecimalParts (s : String) : Option (Bool × Nat × Nat × Nat) :=
  let cs := s.toList
  let (pos, cs) :=
    match cs with
    | '-' :: rest => (false, rest)
    | '+' :: rest => (true, rest)
    | _ => (true, cs)
  match splitDot cs with
  | (ip, none) =>
    match ip with
    | [] => none
    | _ => (readDigitsAux ip 0).map (fun n => (pos, n, 0, 0))
  | (ip, some fp) =>
    if ip = [] ∧ fp = [] then none
    else
      match readDigitsAux ip 0, readDigitsAux fp 0 with
      | some a, some b => some (pos, a, b, fp.length)
      | _, _ => none

/-- Rational denoted by a parsed decimal literal. -/
def decToRat : Bool × Nat × Nat × Nat → ℚ
  | (pos, ip, fp, k) => (if pos then 1 else -1) * ((ip : ℚ) + (fp : ℚ) / (10 : ℚ) ^ k)

/-- Python `float(...)` on the decimal strings of this data set, as a
rational; `none` models the `ValueError` on unparseable text. -/
def parseDecimal (s : String) : Option ℚ :=
  (parseDecimalParts s).map decToRat

/-- Decimal digits of a natural number, most significant first, with fuel
(20 digits is plenty for this data). -/
def natDigitsAux : Nat → Nat → List Char
  | 0, _ => []
  | fuel + 1, n =>
    if n < 10 then [Char.ofNat (48 + n)]
    else natDigitsAux fuel (n / 10) ++ [Char.ofNat (48 + n % 10)]

/-- Decimal rendering of a natural number. -/
def natToString (n : Nat) : String :=
  String.mk (natDigitsAux 20 n)

/-- Decimal rendering of a natural number, zero-padded to width `w`. -/
def padZero (w n : Nat) : String :=
  String.mk (List.replicate (w - (natDigitsAux 20 n).length) '0') ++ natToString n

/-- Round a rational to the nearest integer, ties to the even integer
(the rounding Python `format(x, '.2f')` applies to the scaled value). -/
def roundHalfEven (q : ℚ) : ℤ :=
  if q - ⌊q⌋ < 1 / 2 then ⌊q⌋
  else if q - ⌊q⌋ > 1 / 2 then ⌊q⌋ + 1
  else if Even ⌊q⌋ then ⌊q⌋ else ⌊q⌋ + 1

/-- Python `f'\x7bx:.2f\x7d'`: fixed-point rendering with two decimals. -/
def formatFixed2 (q : ℚ) : String :=
  let n := roundHalfEven (q * 100)
  let sign := if n < 0 then "-" else ""
  sign ++ natToString (n.natAbs / 100) ++ "." ++ padZero 2 (n.natAbs % 100)

/-- First index of `x` in a list of strings, like Python `list.index`
(`none` models the `ValueError` when `x` does not occur). -/
def listIndex (x : String) : List String → Option Nat
  | [] => none
  | y :: ys => if y = x then some 0 else (listIndex x ys).map (· + 1)

/-! ### Python errors -/

/-- Failure modes of the embedded code: `keyError` models a dict `KeyError`;
`valueError` models `ValueError` (from `float`, `strptime` or `list.index`);
`indexError` models a list `IndexError`; `linkageError` models the
dereference failure on an absent `neo` reference inside the writers
(the spec's `LinkageError`). -/
inductive Err where
  | keyError (key : String)
  | valueError
  | indexError
  | linkageError
deriving DecidableEq

/-! ### Date-times (helpers.py, modelled from the spec) -/

/-- Calendar date-time at minute precision (UTC implicit): the payload of
the Python `datetime` values this code builds — the source data carries
no seconds. -/
structure PyDateTime where
  year : Nat
  month : Nat
  day : Nat
  hour : Nat
  minute : Nat
deriving DecidableEq

/-- Three-letter month abbreviations, in month order. -/
def monthAbbrevs : List String :=
  ["Jan", "Feb", "Mar", "Apr", "May", "Jun",
   "Jul", "Aug", "Sep", "Oct", "Nov", "Dec"]

/-- Month number (1-12) of a three-letter abbreviation. -/
def monthFromAbbrev (s : String) : Option Nat :=
  (listIndex s monthAbbrevs).map (· + 1)

/-- Modelled from the spec: `cd_to_datetime` lives in `helpers.py`, which is
not under `src/`. The spec fixes its behavior: the `cd` field is a
"date-time string `YYYY-MMM-DD HH:MM` or similar fixed NASA close-approach
format" parsed to a calendar date-time value at minute precision, and a
malformed value is a parse failure (`none` here). -/
def cd_to_datetime (calendar_date : String) : Option PyDateTime :=
  match splitChar ' ' calendar_date.toList with
  | [datePart, timePart] =>
    match splitChar '-' datePart, splitChar ':' timePart with
    | [y, mon, d], [h, mi] => do
      let year ← readNat? y
      let month ← monthFromAbbrev (String.mk mon)
      let day ← readNat? d
      let hour ← readNat? h
      let minute ← readNat? mi
      if 1 ≤ day ∧ day ≤ 31 ∧ hour ≤ 23 ∧ minute ≤ 59 then
        pure ⟨year, month, day, hour, minute⟩
      else none
    | _, _ => none
  | _ => none

/-- Modelled from the spec: `datetime_to_str` lives in `helpers.py`, which is
not under `src/`. The spec fixes its behavior: a date-time value renders as
`YYYY-MM-DD HH:MM` (24-hour, zero-padded, no seconds, no timezone suffix). -/
def datetime_to_str (dt : PyDateTime) : String :=
  padZero 4 dt.year ++ "-" ++ padZero 2 dt.month ++ "-" ++ padZero 2 dt.day
    ++ " " ++ padZero 2 dt.hour ++ ":" ++ padZero 2 dt.minute

/-! ### Serialized values and Python dictionaries -/

/-- Values appearing in serialized dictionaries: strings, numbers, booleans,
the `float('nan')` sentinel, and nested dictionaries (for the `neo` key in
the JSON writer). -/
inductive Val where
  | vStr (s : String)
  | vNum (q : ℚ)
  | vBool (b : Bool)
  | vNan
  | vDict (entries : List (String × Val))

/-- Python dict assignment `d[k] = v`: update in place if the key is
present (keeping insertion order), else append. -/
def dictSet (d : List (String × Val)) (k : String) (v : Val) : List (String × Val) :=
  if d.any (fun p => p.1 = k) then d.map (fun p => if p.1 = k then (k, v) else p)
  else d ++ [(k, v)]

/-- Python dict lookup `d[k]`, `none` when the key is absent. -/
def dictGet : List (String × Val) → String → Option Val
  | [], _ => none
  | (k, v) :: rest, key => if k = key then some v else dictGet rest key

/-- Dict lookup with a default (Python `d.get(k, dflt)`). -/
def dictGetD (d : List (String × Val)) (key : String) (dflt : Val) : Val :=
  (dictGet d key).getD dflt

/-- Python loop `for key, value in src.items(): d[key] = value`. -/
def mergeInto (d : List (String × Val)) : List (String × Val) → List (String × Val)
  | [] => d
  | (k, v) :: rest => mergeInto (dictSet d k v) rest

/-! ### models.py: NearEarthObject -/

/-- A near-Earth object as `NearEarthObject.__init__` builds it.
`name = none` models Python `None`; `diameter = none` models
`float('nan')`, the unknown-diameter sentinel. The `approaches` list the
constructor initializes to `[]` is populated only by the external linking
collaborator (`NEODatabase`) and plays no role in the embedded code, so
it is not carried here. -/
structure NearEarthObject where
  designation : String
  name : Option String
  diameter : Option ℚ
  hazardous : Bool
deriving DecidableEq

/-- The keyword-argument mapping `**info` passed to `NearEarthObject`:
each field is `none` when the key is absent. `hazardous` carries the
already-converted boolean the repository's caller supplies
(`load_neos` passes `neo['pha'] == 'Y'`). -/
structure NeoInfo where
  designation : Option String
  hazardous : Option Bool
  name : Option String
  diameter : Option String

/-- Embeds `NearEarthObject.__init__` (models.py lines 36-60): reads the
required `designation` and `hazardous` keys (KeyError when absent),
normalizes an absent or empty `name` to `none`, and sets `diameter` to the
unknown sentinel exactly when the raw value is missing or the empty
string, else parses it (`ValueError` on unparseable text). -/
def construct_object (info : NeoInfo) : Except Err NearEarthObject :=
  match info.designation with
  | none => .error (.keyError "designation")
  | some designation =>
    match info.hazardous with
    | none => .error (.keyError "hazardous")
    | some hazardous =>
      let name :=
        match info.name with
        | some s => if s = "" then none else some s
        | none => none
      match info.diameter with
      | none => .ok ⟨designation, name, none, hazardous⟩
      | some s =>
        if s = "" then .ok ⟨designation, name, none, hazardous⟩
        else
          match parseDecimal s with
          | some q => .ok ⟨designation, name, some q, hazardous⟩
          | none => .error .valueError

/-- Embeds the `fullname` property (models.py lines 62-68). -/
def NearEarthObject.fullname (neo : NearEarthObject) : String :=
  match neo.name with
  | none => neo.designation
  | some name => neo.designation ++ " (" ++ name ++ ")"

/-- Embeds `NearEarthObject.serialize` (models.py lines 86-93): the Python
truthiness test `self.name if self.name else ''` sends both `None` and the
empty string to `''`, and a `nan` diameter serializes as the sentinel. -/
def NearEarthObject.serialize (neo : NearEarthObject) : List (String × Val) :=
  [("designation", .vStr neo.designation),
   ("name", .vStr (match neo.name with
     | some n => if n = "" then "" else n
     | none => "")),
   ("diameter_km", match neo.diameter with
     | some q => .vNum q
     | none => .vNan),
   ("potentially_hazardous", .vBool neo.hazardous)]

/-! ### models.py: CloseApproach -/

/-- A close approach as `CloseApproach.__init__` builds it: the private
linking key `_designation`, the parsed approach time, distance (au),
velocity (km/s), and the initially-absent reference to the linked NEO. -/
structure CloseApproach where
  _designation : String
  time : PyDateTime
  distance : ℚ
  velocity : ℚ
  neo : Option NearEarthObject
deriving DecidableEq

/-- The keyword-argument mapping `**info` passed to `CloseApproach`:
each field is `none` when the key is absent. -/
structure ApproachInfo where
  designation : Option String
  time : Option String
  distance : Option String
  velocity : Option String

/-- Embeds `CloseApproach.__init__` (models.py lines 110-123): reads the
four required keys (KeyError when absent), parses the time with
`cd_to_datetime` and the distance and velocity with `float`
(`ValueError` on failure), and initializes `neo` to `None`. -/
def construct_approach (info : ApproachInfo) : Except Err CloseApproach :=
  match info.designation with
  | none => .error (.keyError "designation")
  | some designation =>
    match info.time with
    | none => .error (.keyError "time")
    | some rawTime =>
      match cd_to_datetime rawTime with
      | none => .error .valueError
      | some time =>
        match info.distance with
        | none => .error (.keyError "distance")
        | some rawDistance =>
          match parseDecimal rawDistance with
          | none => .error .valueError
          | some distance =>
            match info.velocity with
            | none => .error (.keyError "velocity")
            | some rawVelocity =>
              match parseDecimal rawVelocity with
              | none => .error .valueError
              | some velocity => .ok ⟨designation, time, distance, velocity, none⟩

/-- Embeds the `time_str` property (models.py lines 125-138). -/
def CloseApproach.time_str (ca : CloseApproach) : String :=
  datetime_to_str ca.time

/-- Embeds `CloseApproach.__str__` (models.py lines 140-150): renders the
approach sentence, using `the object {_designation}` while the `neo`
reference is absent and the linked object's full name once it is set. -/
def CloseApproach.toStr (ca : CloseApproach) : String :=
  let neo_string :=
    match ca.neo with
    | none => "the object " ++ ca._designation
    | some neo => neo.fullname
  "At " ++ ca.time_str ++ ", " ++ neo_string ++ " approaches Earth "
    ++ "at a distance of " ++ formatFixed2 ca.distance ++ " au "
    ++ "with a velocity of " ++ formatFixed2 ca.velocity ++ " km/s."

/-- The approach sentence with an arbitrary subject string: the shape of
the human-readable rendering, used to state which subject `__str__`
chooses before and after linking. -/
def approachSentence (ca : CloseApproach) (neo_string : String) : String :=
  "At " ++ ca.time_str ++ ", " ++ neo_string ++ " approaches Earth "
    ++ "at a distance of " ++ formatFixed2 ca.distance ++ " au "
    ++ "with a velocity of " ++ formatFixed2 ca.velocity ++ " km/s."

/-- Embeds `CloseApproach.serialize` (models.py lines 158-164). -/
def CloseApproach.serialize (ca : CloseApproach) : List (String × Val) :=
  [("datetime_utc", .vStr ca.time_str),
   ("distance_au", .vNum ca.distance),
   ("velocity_km_s", .vNum ca.velocity)]

/-! ### extract.py: load_approaches -/

/-- The per-row loop of `load_approaches` (extract.py lines 54-58): for
each row, fetch the four cells at the resolved positions (IndexError when
a row is too short) and construct one `CloseApproach` from them. -/
def loadRows (iDes iCd iDist iVrel : Nat) :
    List (List String) → Except Err (List CloseApproach)
  | [] => .ok []
  | cad :: rest =>
    match cad[iDes]? with
    | none => .error .indexError
    | some des =>
      match cad[iCd]? with
      | none => .error .indexError
      | some t =>
        match cad[iDist]? with
        | none => .error .indexError
        | some di =>
          match cad[iVrel]? with
          | none => .error .indexError
          | some v =>
            match construct_approach ⟨some des, some t, some di, some v⟩ with
            | .error e => .error e
            | .ok ca =>
              match loadRows iDes iCd iDist iVrel rest with
              | .error e => .error e
              | .ok cas => .ok (ca :: cas)

/-- Embeds `load_approaches` (extract.py lines 40-59) on an already-decoded
JSON document (its `fields` and `data` members): resolves the column
positions of exactly `des`, `cd`, `dist`, `v_rel` by first-occurrence name
lookup (`list.index`, a `ValueError` when one is absent) before iterating
the rows, then builds one `CloseApproach` per row from those positions. -/
def load_approaches (cad_fields : List String) (cad_data : List (List String)) :
    Except Err (List CloseApproach) :=
  match listIndex "des" cad_fields, listIndex "cd" cad_fields,
        listIndex "dist" cad_fields, listIndex "v_rel" cad_fields with
  | some iDes, some iCd, some iDist, some iVrel => loadRows iDes iCd iDist iVrel cad_data
  | _, _, _, _ => .error .valueError

/-! ### write.py: write_to_csv and write_to_json -/

/-- The fixed CSV column order (write.py lines 26-29). -/
def fieldnames : List String :=
  ["datetime_utc", "distance_au", "velocity_km_s",
   "designation", "name", "diameter_km", "potentially_hazardous"]

/-- A `csv.DictWriter` data row: the dict's values in `fieldnames` order
(the writer's `restval` default is the empty string). -/
def writerow (d : List (String × Val)) : List Val :=
  fieldnames.map (fun f => dictGetD d f (.vStr ""))

/-- The header row `DictWriter.writeheader` emits. -/
def headerRow : List Val :=
  fieldnames.map .vStr

/-- The row-writing loop of `write_to_csv` (write.py lines 33-52), emitted
rows paired with the error that aborted the loop, if any: each approach's
serialized dict is merged with its linked object's serialized dict
(`approach_dict[key] = value` per object entry) and written; an absent
`neo` is a dereference failure that stops the loop, leaving only the rows
already written. -/
def writeRows : List CloseApproach → List (List Val) × Option Err
  | [] => ([], none)
  | ca :: rest =>
    match ca.neo with
    | none => ([], some .linkageError)
    | some neo =>
      (writerow (mergeInto ca.serialize neo.serialize) :: (writeRows rest).1,
       (writeRows rest).2)

/-- Embeds `write_to_csv` (write.py lines 15-52) as the written file
content: the header row followed by the data rows the loop managed to
emit, paired with the error that aborted it, if any. -/
def write_to_csv (results : List CloseApproach) : List (List Val) × Option Err :=
  (headerRow :: (writeRows results).1, (writeRows results).2)

/-- Embeds `write_to_json` (write.py lines 55-73): the output list is
built fully in memory — one dict per approach, its serialized fields plus
a `neo` key holding the linked object's serialized dict — and dumped only
after the loop, so a dereference failure on an absent `neo` aborts the
call before anything is written. -/
def write_to_json : List CloseApproach → Except Err (List Val)
  | [] => .ok []
  | ca :: rest =>
    match ca.neo with
    | none => .error .linkageError
    | some neo =>
      match write_to_json rest with
      | .error e => .error e
      | .ok output => .ok (.vDict (dictSet ca.serialize "neo" (.vDict neo.serialize)) :: output)

/-! ### Spec-side description of a tabular data row -/

/-- Follows the spec's words for one tabular data row (sections 4.3 and 6):
the approach's serialized fields then the linked object's serialized
fields, in the fixed column order `datetime_utc, distance_au,
velocity_km_s, designation, name, diameter_km, potentially_hazardous` —
formatted time, stored distance and velocity, then the object's
designation, its name (empty string if absent), its diameter (the unknown
sentinel when unknown) and its hazardous flag. Compared against what
`write_to_csv` emits. Empty for an unlinked approach, which the spec
excludes by precondition. -/
def csvRowSpec (ca : CloseApproach) : List Val :=
  match ca.neo with
  | none => []
  | some neo =>
    [.vStr (datetime_to_str ca.time), .vNum ca.distance, .vNum ca.velocity,
     .vStr neo.designation,
     .vStr (neo.name.getD ""),
     (match neo.diameter with | some q => .vNum q | none => .vNan),
     .vBool neo.hazardous]

/-! ### Concrete inputs used by the witnesses -/

/-- The spec's round-trip example schema: the four required names plus an
extra unused field. -/
def exFields : List String := ["des", "cd", "dist", "v_rel", "extra"]

/-- The spec's round-trip example row. -/
def exData : List (List String) :=
  [["2015 AB", "2020-Jan-01 06:00", "0.3", "5.5", "ignored"]]

/-- The approach the spec's round-trip example should produce. -/
def exApproach : CloseApproach :=
  ⟨"2015 AB", ⟨2020, 1, 1, 6, 0⟩, 3 / 10, 11 / 2, none⟩

/-- A schema listing `des` twice, to exercise first-occurrence resolution. -/
def dupFields : List String := ["des", "cd", "dist", "v_rel", "des"]

/-- One data row whose first and last cells differ, so the two `des`
columns are distinguishable. -/
def dupData : List (List String) :=
  [["A", "2020-Jan-01 06:00", "0.3", "5.5", "B"]]

/-- The approach the duplicate-schema row should produce: its designation
comes from the first `des` column. -/
def dupApproach : CloseApproach :=
  ⟨"A", ⟨2020, 1, 1, 6, 0⟩, 3 / 10, 11 / 2, none⟩

/-- An approach that was never linked to its object. -/
def caUnlinked : CloseApproach :=
  ⟨"2010 XY", ⟨2020, 1, 1, 0, 0⟩, 1, 1, none⟩

/-- A field mapping whose name key maps to the empty string. -/
def infoC3 : NeoInfo := ⟨some "2020 FK", some true, some "", some "12.5"⟩

/-- The object `infoC3` constructs. -/
def neoC3 : NearEarthObject :=
  ⟨"2020 FK", none, some (decToRat (true, 12, 5, 1)), true⟩

/-- A field mapping whose diameter is the literal `0`. -/
def infoZeroDiam : NeoInfo := ⟨some "1 A", some false, none, some "0"⟩

/-- The object `infoZeroDiam` constructs. -/
def neoZeroDiam : NearEarthObject :=
  ⟨"1 A", none, some (decToRat (true, 0, 0, 0)), false⟩

/-- A field mapping with no diameter key. -/
def infoNoDiam : NeoInfo := ⟨some "1 B", some false, none, none⟩

/-- The object `infoNoDiam` constructs. -/
def neoNoDiam : NearEarthObject := ⟨"1 B", none, none, false⟩

/-- The spec's full-name example object without a name. -/
def neoFK : NearEarthObject := ⟨"2020 FK", none, none, false⟩

/-- The spec's full-name example object named Skippy. -/
def neoSkippy : NearEarthObject := ⟨"2020 FK", some "Skippy", none, false⟩

/-- The object with designation `433`, for the rendering example. -/
def neo433 : NearEarthObject := ⟨"433", some "Eros", none, false⟩

/-- The approach with designation `433` before linking. -/
def ca433 : CloseApproach := ⟨"433", ⟨2020, 1, 1, 0, 0⟩, 1, 1, none⟩

/-- The approach with designation `433` after its `neo` is set. -/
def ca433Linked : CloseApproach := ⟨"433", ⟨2020, 1, 1, 0, 0⟩, 1, 1, some neo433⟩

/-- A linked approach for the CSV-output witness. -/
def caLinked : CloseApproach :=
  ⟨"2015 AB", ⟨2020, 1, 1, 6, 0⟩, 3 / 10, 11 / 2, some neoSkippy⟩

/-! ### Inversion lemmas for the constructors -/

/-- Successful object construction determines every attribute from the
field mapping: designation and hazardous are the (present) raw values,
name is the truthiness-normalized raw name, and diameter is the unknown
sentinel exactly for a missing or empty raw value, else the parsed
number. -/
theorem construct_object_ok (info : NeoInfo) (neo : NearEarthObject)
    (h : construct_object info = .ok neo) :
    (∃ d, info.designation = some d ∧ neo.designation = d) ∧
    (∃ b, info.hazardous = some b ∧ neo.hazardous = b) ∧
    neo.name = (match info.name with
      | some s => if s = "" then none else some s
      | none => none) ∧
    ((info.diameter = none ∨ info.diameter = some "") → neo.diameter = none) ∧
    (∀ s, info.diameter = some s → s ≠ "" →
      ∃ q, parseDecimal s = some q ∧ neo.diameter = some q) := by
  rcases hdes : info.designation with _ | d
  · simp [construct_object, hdes] at h
  rcases hhaz : info.hazardous with _ | b
  · simp [construct_object, hdes, hhaz] at h
  rcases hdia : info.diameter with _ | s
  · simp only [construct_object, hdes, hhaz, hdia] at h
    cases h
    exact ⟨⟨d, rfl, rfl⟩, ⟨b, rfl, rfl⟩, rfl, fun _ => rfl, by simp⟩
  · by_cases hs : s = ""
    · subst hs
      simp only [construct_object, hdes, hhaz, hdia, if_pos rfl] at h
      cases h
      exact ⟨⟨d, rfl, rfl⟩, ⟨b, rfl, rfl⟩, rfl, fun _ => rfl, by simp⟩
    · rcases hq : parseDecimal s with _ | q
      · simp [construct_object, hdes, hhaz, hdia, hs, hq] at h
      · simp only [construct_object, hdes, hhaz, hdia, if_neg hs, hq] at h
        cases h
        refine ⟨⟨d, rfl, rfl⟩, ⟨b, rfl, rfl⟩, rfl, ?_, ?_⟩
        · rintro (h' | h') <;> simp_all
        · intro s' hs' _
          cases hs'
          exact ⟨q, hq, rfl⟩

/-- Successful approach construction determines every attribute from the
field mapping: the private designation is the raw value, time is the
parsed `cd` string, distance and velocity are the parsed numbers, and the
`neo` reference starts out absent. -/
theorem construct_approach_ok (info : ApproachInfo) (ca : CloseApproach)
    (h : construct_approach info = .ok ca) :
    ∃ des t di v,
      info.designation = some des ∧ info.time = some t ∧
      info.distance = some di ∧ info.velocity = some v ∧
      ca._designation = des ∧ cd_to_datetime t = some ca.time ∧
      parseDecimal di = some ca.distance ∧ parseDecimal v = some ca.velocity ∧
      ca.neo = none := by
  rcases hdes : info.designation with _ | des
  · simp [construct_approach, hdes] at h
  rcases ht : info.time with _ | t
  · simp [construct_approach, hdes, ht] at h
  rcases htt : cd_to_datetime t with _ | time
  · simp [construct_approach, hdes, ht, htt] at h
  rcases hdi : info.distance with _ | di
  · simp [construct_approach, hdes, ht, htt, hdi] at h
  rcases hdq : parseDecimal di with _ | dq
  · simp [construct_approach, hdes, ht, htt, hdi, hdq] at h
  rcases hv : info.velocity with _ | v
  · simp [construct_approach, hdes, ht, htt, hdi, hdq, hv] at h
  rcases hvq : parseDecimal v with _ | vq
  · simp [construct_approach, hdes, ht, htt, hdi, hdq, hv, hvq] at h
  simp only [construct_approach, hdes, ht, htt, hdi, hdq, hv, hvq] at h
  cases h
  exact ⟨des, t, di, v, rfl, rfl, rfl, rfl, rfl, htt, hdq, hvq, rfl⟩

/-! ### C2: empty designation -/

/-- C2 counterexample: constructing a NearEarthObject from a field mapping
whose designation key maps to the empty string succeeds — the constructor
applies `str(...)` with no emptiness check — yielding an object whose
designation is the empty string, contrary to the claim that construction
never succeeds with an empty designation. -/
theorem construct_object_empty_designation_accepted :
    construct_object ⟨some "", some true, none, none⟩ =
      .ok ⟨"", none, none, true⟩ := rfl

/-- C2 (amended): if the designation key is absent, construction fails
with the missing-key error; but a designation mapping to the empty string
is not rejected — whatever designation string is supplied, including the
empty one, is preserved on the constructed object when construction
succeeds. -/
theorem construct_object_designation_behavior (info : NeoInfo) :
    (info.designation = none →
      construct_object info = .error (.keyError "designation")) ∧
    (∀ d neo, info.designation = some d → construct_object info = .ok neo →
      neo.designation = d) := by
  constructor
  · intro h
    simp [construct_object, h]
  · intro d neo hd hok
    obtain ⟨⟨d', hd', hdes⟩, _⟩ := construct_object_ok info neo hok
    rw [hd] at hd'
    cases hd'
    exact hdes

/-- C2 witness: with the designation key absent, construction fails with
the missing-key error; with the designation key present but empty,
construction succeeds and preserves the empty designation. -/
theorem construct_object_designation_behavior_witness :
    construct_object ⟨none, some true, none, none⟩ =
      .error (.keyError "designation") ∧
    (⟨"", none, none, true⟩ : NearEarthObject).designation = "" := by
  constructor
  · exact (construct_object_designation_behavior ⟨none, some true, none, none⟩).1 rfl
  · exact (construct_object_designation_behavior ⟨some "", some true, none, none⟩).2
      "" ⟨"", none, none, true⟩ rfl rfl

/-! ### C3: construct then serialize round-trip -/

/-- C3: for every field mapping from which construction succeeds, the
serialized mapping's designation and potentially_hazardous entries equal
the constructed object's designation and hazardous flag exactly, and its
name entry is the empty string whenever the source name was absent or
empty. -/
theorem construct_serialize_roundtrip (info : NeoInfo) (neo : NearEarthObject)
    (h : construct_object info = .ok neo) :
    dictGet neo.serialize "designation" = some (.vStr neo.designation) ∧
    dictGet neo.serialize "potentially_hazardous" = some (.vBool neo.hazardous) ∧
    ((info.name = none ∨ info.name = some "") →
      dictGet neo.serialize "name" = some (.vStr "")) := by
  refine ⟨rfl, rfl, ?_⟩
  intro hname
  obtain ⟨_, _, hn, _, _⟩ := construct_object_ok info neo h
  have hnone : neo.name = none := by
    rcases hname with h' | h' <;> rw [h'] at hn <;> simpa using hn
  simp [NearEarthObject.serialize, dictGet, hnone]

/-- C3 witness: a mapping with designation `2020 FK`, hazardous `true`,
an empty name and diameter `12.5` constructs successfully, and its
serialization recovers the designation and hazardous flag and sends the
empty name to the empty string. -/
theorem construct_serialize_roundtrip_witness :
    construct_object infoC3 = .ok neoC3 ∧
    dictGet neoC3.serialize "designation" = some (.vStr "2020 FK") ∧
    dictGet neoC3.serialize "potentially_hazardous" = some (.vBool true) ∧
    dictGet neoC3.serialize "name" = some (.vStr "") := by
  have h : construct_object infoC3 = .ok neoC3 := rfl
  obtain ⟨h1, h2, h3⟩ := construct_serialize_roundtrip infoC3 neoC3 h
  exact ⟨h, h1, h2, h3 (Or.inr rfl)⟩

/-! ### C4: diameter zero versus unknown -/

/-- C4: for every field mapping from which construction succeeds, a
diameter source value denoting exactly `0` serializes as the number `0`
(not the unknown sentinel), while an absent or empty-string diameter
serializes as the unknown (not-a-number) sentinel, never zero. -/
theorem serialize_diameter_zero_vs_unknown (info : NeoInfo) (neo : NearEarthObject)
    (h : construct_object info = .ok neo) :
    (∀ s, info.diameter = some s → parseDecimal s = some 0 →
      dictGet neo.serialize "diameter_km" = some (.vNum 0)) ∧
    ((info.diameter = none ∨ info.diameter = some "") →
      dictGet neo.serialize "diameter_km" = some .vNan) := by
  obtain ⟨_, _, _, hunknown, hparsed⟩ := construct_object_ok info neo h
  constructor
  · intro s hs hzero
    have hne : s ≠ "" := by
      intro he
      subst he
      have hempty : parseDecimal "" = none := rfl
      rw [hempty] at hzero
      cases hzero
    obtain ⟨q, hq, hdiam⟩ := hparsed s hs hne
    rw [hzero] at hq
    cases hq
    simp [NearEarthObject.serialize, dictGet, hdiam]
  · intro hcase
    have hdiam := hunknown hcase
    simp [NearEarthObject.serialize, dictGet, hdiam]

/-- C4 witness: a mapping with diameter `0` constructs an object whose
serialized diameter_km is the number `0`, and a mapping with no diameter
key constructs an object whose serialized diameter_km is the unknown
sentinel. -/
theorem serialize_diameter_zero_vs_unknown_witness :
    construct_object infoZeroDiam = .ok neoZeroDiam ∧
    parseDecimal "0" = some 0 ∧
    dictGet neoZeroDiam.serialize "diameter_km" = some (.vNum 0) ∧
    construct_object infoNoDiam = .ok neoNoDiam ∧
    dictGet neoNoDiam.serialize "diameter_km" = some .vNan := by
  have hz : construct_object infoZeroDiam = .ok neoZeroDiam := rfl
  have hn : construct_object infoNoDiam = .ok neoNoDiam := rfl
  have hp : parseDecimal "0" = some 0 := by
    have h0 : parseDecimal "0" = some (decToRat (true, 0, 0, 0)) := rfl
    rw [h0]
    norm_num [decToRat]
  refine ⟨hz, hp, ?_, hn, ?_⟩
  · exact (serialize_diameter_zero_vs_unknown infoZeroDiam neoZeroDiam hz).1 "0" rfl hp
  · exact (serialize_diameter_zero_vs_unknown infoNoDiam neoNoDiam hn).2 (Or.inl rfl)

/-! ### C7: full name -/

/-- C7: `fullname` is exactly the designation when the name is absent, and
`designation (name)` when a name is present. -/
theorem fullname_spec (neo : NearEarthObject) :
    (neo.name = none → neo.fullname = neo.designation) ∧
    (∀ nm, neo.name = some nm →
      neo.fullname = neo.designation ++ " (" ++ nm ++ ")") := by
  constructor
  · intro h
    simp [NearEarthObject.fullname, h]
  · intro nm h
    simp [NearEarthObject.fullname, h]

/-- C7 witness: the spec's examples — designation `2020 FK` with no name
gives `2020 FK`, and with name `Skippy` gives `2020 FK (Skippy)`. -/
theorem fullname_spec_witness :
    neoFK.name = none ∧ neoFK.fullname = "2020 FK" ∧
    neoSkippy.name = some "Skippy" ∧ neoSkippy.fullname = "2020 FK (Skippy)" :=
  ⟨rfl, (fullname_spec neoFK).1 rfl, rfl, (fullname_spec neoSkippy).2 "Skippy" rfl⟩

/-! ### C9: CSV output on an empty stream -/

/-- C9: writing an empty iterable of approaches to CSV succeeds (no error)
and produces exactly the header row and no data rows — the header is
written unconditionally before any approach is examined. -/
theorem write_to_csv_empty :
    write_to_csv [] =
      ([[Val.vStr "datetime_utc", Val.vStr "distance_au", Val.vStr "velocity_km_s",
         Val.vStr "designation", Val.vStr "name", Val.vStr "diameter_km",
         Val.vStr "potentially_hazardous"]], none) := rfl

/-! ### C1: unlinked approaches abort both writers -/

/-- The CSV row loop aborts with the linkage failure as soon as it reaches
an approach with no linked object: the error comes back and strictly
fewer data rows than approaches were emitted. -/
theorem writeRows_unlinked (l : List CloseApproach)
    (h : ∃ ca ∈ l, ca.neo = none) :
    (writeRows l).2 = some Err.linkageError ∧ (writeRows l).1.length < l.length := by
  induction l with
  | nil =>
    obtain ⟨ca, hmem, _⟩ := h
    cases hmem
  | cons ca rest ih =>
    obtain ⟨ca', hmem, hnone⟩ := h
    rcases hneo : ca.neo with _ | neo
    · simp [writeRows, hneo]
    · have hmem' : ca' ∈ rest := by
        rcases List.mem_cons.mp hmem with h' | h'
        · subst h'
          rw [hneo] at hnone
          cases hnone
        · exact h'
      obtain ⟨h2, hlen⟩ := ih ⟨ca', hmem', hnone⟩
      simp only [writeRows, hneo]
      exact ⟨h2, by simpa using Nat.succ_lt_succ hlen⟩

/-- The JSON writer fails outright when some approach in the stream has no
linked object: the output list is never completed, so nothing is dumped. -/
theorem write_to_json_unlinked (l : List CloseApproach)
    (h : ∃ ca ∈ l, ca.neo = none) :
    write_to_json l = .error Err.linkageError := by
  induction l with
  | nil =>
    obtain ⟨ca, hmem, _⟩ := h
    cases hmem
  | cons ca rest ih =>
    obtain ⟨ca', hmem, hnone⟩ := h
    rcases hneo : ca.neo with _ | neo
    · simp [write_to_json, hneo]
    · have hmem' : ca' ∈ rest := by
        rcases List.mem_cons.mp hmem with h' | h'
        · subst h'
          rw [hneo] at hnone
          cases hnone
        · exact h'
      have hrest := ih ⟨ca', hmem', hnone⟩
      simp [write_to_json, hneo, hrest]

/-- C1: for every stream of approaches containing at least one whose `neo`
reference is absent, the CSV writer ends in the linkage failure with
strictly fewer rows than a complete file would hold (header plus one row
per approach — no placeholder is substituted), and the JSON writer fails
with the linkage failure before writing anything. -/
theorem write_unlinked_fails (results : List CloseApproach)
    (h : ∃ ca ∈ results, ca.neo = none) :
    (write_to_csv results).2 = some Err.linkageError ∧
    (write_to_csv results).1.length < results.length + 1 ∧
    write_to_json results = .error Err.linkageError := by
  obtain ⟨h2, hlen⟩ := writeRows_unlinked results h
  refine ⟨h2, ?_, write_to_json_unlinked results h⟩
  simpa [write_to_csv] using Nat.succ_lt_succ hlen

/-- C1 witness: on a one-approach stream whose approach is unlinked, the
CSV writer reports the linkage failure with fewer than two rows written
and the JSON writer fails with the linkage failure. -/
theorem write_unlinked_fails_witness :
    (∃ ca ∈ [caUnlinked], ca.neo = none) ∧
    (write_to_csv [caUnlinked]).2 = some Err.linkageError ∧
    (write_to_csv [caUnlinked]).1.length < [caUnlinked].length + 1 ∧
    write_to_json [caUnlinked] = .error Err.linkageError := by
  have hex : ∃ ca ∈ [caUnlinked], ca.neo = none :=
    ⟨caUnlinked, List.mem_singleton.mpr rfl, rfl⟩
  exact ⟨hex, write_unlinked_fails [caUnlinked] hex⟩

/-! ### C6: CSV header and data rows -/

/-- What the CSV writer's dictionary machinery computes for one linked
approach, written out entrywise: the merged dict read back in the fixed
column order. -/
theorem writerow_merge (ca : CloseApproach) (neo : NearEarthObject) :
    writerow (mergeInto ca.serialize neo.serialize) =
      [.vStr ca.time_str, .vNum ca.distance, .vNum ca.velocity,
       .vStr neo.designation,
       .vStr (match neo.name with | some n => if n = "" then "" else n | none => ""),
       (match neo.diameter with | some q => .vNum q | none => .vNan),
       .vBool neo.hazardous] := rfl

/-- The merged row the writer emits for a linked approach is exactly the
spec's description of a tabular data row. -/
theorem writerow_merge_spec (ca : CloseApproach) (neo : NearEarthObject)
    (h : ca.neo = some neo) :
    writerow (mergeInto ca.serialize neo.serialize) = csvRowSpec ca := by
  rw [writerow_merge]
  simp only [csvRowSpec, h, CloseApproach.time_str]
  rcases hn : neo.name with _ | n
  · simp
  · by_cases hn' : n = "" <;> simp [hn']

/-- The CSV row loop on a fully linked stream emits exactly one data row
per approach, each the spec-described row, and no error. -/
theorem writeRows_linked (l : List CloseApproach)
    (h : ∀ ca ∈ l, ca.neo.isSome) :
    writeRows l = (l.map csvRowSpec, none) := by
  induction l with
  | nil => rfl
  | cons ca rest ih =>
    obtain ⟨neo, hneo⟩ := Option.isSome_iff_exists.mp (h ca (List.mem_cons_self ca rest))
    have hrest := ih (fun x hx => h x (List.mem_cons_of_mem _ hx))
    simp only [writeRows, hneo, hrest, writerow_merge_spec ca neo hneo, List.map_cons]

/-- C6: on every fully linked stream of approaches, the tabular output is
the header row, exactly `datetime_utc, distance_au, velocity_km_s,
designation, name, diameter_km, potentially_hazardous`, followed by one
data row per approach — the approach's serialized fields merged with its
linked object's serialized fields in that fixed column order — and no
error. -/
theorem write_to_csv_header_rows (results : List CloseApproach)
    (h : ∀ ca ∈ results, ca.neo.isSome) :
    write_to_csv results =
      ([Val.vStr "datetime_utc", Val.vStr "distance_au", Val.vStr "velocity_km_s",
        Val.vStr "designation", Val.vStr "name", Val.vStr "diameter_km",
        Val.vStr "potentially_hazardous"] :: results.map csvRowSpec, none) := by
  simp only [write_to_csv, writeRows_linked results h]
  rfl

/-- C6 witness: a single linked approach produces the header row and the
one merged data row, evaluated in full. -/
theorem write_to_csv_header_rows_witness :
    (∀ ca ∈ [caLinked], ca.neo.isSome) ∧
    write_to_csv [caLinked] =
      ([Val.vStr "datetime_utc", Val.vStr "distance_au", Val.vStr "velocity_km_s",
        Val.vStr "designation", Val.vStr "name", Val.vStr "diameter_km",
        Val.vStr "potentially_hazardous"] :: [caLinked].map csvRowSpec, none) ∧
    csvRowSpec caLinked =
      [Val.vStr "2020-01-01 06:00", Val.vNum (3 / 10), Val.vNum (11 / 2),
       Val.vStr "2020 FK", Val.vStr "Skippy", Val.vNan, Val.vBool false] := by
  have hall : ∀ ca ∈ [caLinked], ca.neo.isSome := by
    intro ca hca
    rcases List.mem_singleton.mp hca with rfl
    rfl
  exact ⟨hall, write_to_csv_header_rows [caLinked] hall, rfl⟩

/-! ### C8: rendering before and after linking -/

/-- C8: the human-readable rendering of an approach is the approach
sentence whose subject is `the object` followed by the bare designation
while the `neo` reference is absent, and the linked object's full name
once it is set. -/
theorem approach_str_subject (ca : CloseApproach) :
    (ca.neo = none →
      ca.toStr = approachSentence ca ("the object " ++ ca._designation)) ∧
    (∀ neo, ca.neo = some neo → ca.toStr = approachSentence ca neo.fullname) := by
  constructor
  · intro h
    simp [CloseApproach.toStr, approachSentence, h]
  · intro neo h
    simp [CloseApproach.toStr, approachSentence, h]

/-- C8 witness: for designation `433` with no linked object the rendering
is the sentence about `the object 433`; after the `neo` reference is set
the rendering uses the object's full name `433 (Eros)`. -/
theorem approach_str_subject_witness :
    ca433.neo = none ∧
    ca433.toStr = approachSentence ca433 "the object 433" ∧
    ca433Linked.neo = some neo433 ∧
    ca433Linked.toStr = approachSentence ca433Linked "433 (Eros)" :=
  ⟨rfl, (approach_str_subject ca433).1 rfl, rfl,
   (approach_str_subject ca433Linked).2 neo433 rfl⟩

/-! ### C5 and C10: ingestion of the structured source -/

/-- The row loop of `load_approaches` produces exactly one approach per
data row, each built by `construct_approach` from the cells at the four
resolved column positions. -/
theorem loadRows_ok_spec (iDes iCd iDist iVrel : Nat) (data : List (List String)) :
    ∀ cas, loadRows iDes iCd iDist iVrel data = .ok cas →
      cas.length = data.length ∧
      ∀ (k : Nat) (row : List String), data[k]? = some row →
        ∃ des t di v ca,
          row[iDes]? = some des ∧ row[iCd]? = some t ∧
          row[iDist]? = some di ∧ row[iVrel]? = some v ∧
          construct_approach ⟨some des, some t, some di, some v⟩ = .ok ca ∧
          cas[k]? = some ca := by
  induction data with
  | nil =>
    intro cas h
    simp only [loadRows] at h
    injection h with h
    subst h
    refine ⟨rfl, ?_⟩
    intro k row hk
    simp at hk
  | cons cad rest ih =>
    intro cas h
    rcases h1 : cad[iDes]? with _ | des
    · simp [loadRows, h1] at h
    rcases h2 : cad[iCd]? with _ | t
    · simp [loadRows, h1, h2] at h
    rcases h3 : cad[iDist]? with _ | di
    · simp [loadRows, h1, h2, h3] at h
    rcases h4 : cad[iVrel]? with _ | v
    · simp [loadRows, h1, h2, h3, h4] at h
    rcases hca : construct_approach ⟨some des, some t, some di, some v⟩ with e | ca
    · simp [loadRows, h1, h2, h3, h4, hca] at h
    rcases hrest : loadRows iDes iCd iDist iVrel rest with e | cas'
    · simp [loadRows, h1, h2, h3, h4, hca, hrest] at h
    simp only [loadRows, h1, h2, h3, h4, hca, hrest] at h
    injection h with h
    subst h
    obtain ⟨ihlen, ihspec⟩ := ih cas' hrest
    refine ⟨by simpa using ihlen, ?_⟩
    intro k row hk
    cases k with
    | zero =>
      rw [List.getElem?_cons_zero] at hk
      injection hk with hk
      subst hk
      exact ⟨des, t, di, v, ca, h1, h2, h3, h4, hca, List.getElem?_cons_zero⟩
    | succ k =>
      simp only [List.getElem?_cons_succ] at hk ⊢
      exact ihspec k row hk

/-- Inversion of `load_approaches`: success means all four field names
were resolved by first-occurrence lookup before the rows were processed,
and the row loop ran with exactly those positions. -/
theorem load_approaches_ok_inv (cad_fields : List String)
    (cad_data : List (List String)) (cas : List CloseApproach)
    (h : load_approaches cad_fields cad_data = .ok cas) :
    ∃ iDes iCd iDist iVrel,
      listIndex "des" cad_fields = some iDes ∧
      listIndex "cd" cad_fields = some iCd ∧
      listIndex "dist" cad_fields = some iDist ∧
      listIndex "v_rel" cad_fields = some iVrel ∧
      loadRows iDes iCd iDist iVrel cad_data = .ok cas := by
  rcases h1 : listIndex "des" cad_fields with _ | iDes
  · simp [load_approaches, h1] at h
  rcases h2 : listIndex "cd" cad_fields with _ | iCd
  · simp [load_approaches, h1, h2] at h
  rcases h3 : listIndex "dist" cad_fields with _ | iDist
  · simp [load_approaches, h1, h2, h3] at h
  rcases h4 : listIndex "v_rel" cad_fields with _ | iVrel
  · simp [load_approaches, h1, h2, h3, h4] at h
  simp only [load_approaches, h1, h2, h3, h4] at h
  exact ⟨iDes, iCd, iDist, iVrel, rfl, rfl, rfl, rfl, h⟩

/-- The attributes of an approach built from four present raw values are
determined by those values: designation verbatim, time and numbers by
parsing, and no linked object. -/
theorem construct_approach_fields (des t di v : String) (ca : CloseApproach)
    (h : construct_approach ⟨some des, some t, some di, some v⟩ = .ok ca) :
    ca._designation = des ∧ cd_to_datetime t = some ca.time ∧
    parseDecimal di = some ca.distance ∧ parseDecimal v = some ca.velocity ∧
    ca.neo = none := by
  obtain ⟨des', t', di', v', e1, e2, e3, e4, e5, e6, e7, e8, e9⟩ :=
    construct_approach_ok ⟨some des, some t, some di, some v⟩ ca h
  injection e1 with e1
  injection e2 with e2
  injection e3 with e3
  injection e4 with e4
  subst e1
  subst e2
  subst e3
  subst e4
  exact ⟨e5, e6, e7, e8, e9⟩

/-- C5: whenever the schema resolves all four required field names, a
successful load returns exactly one approach per data row, each built by
`construct_approach` from that row's cells at the four resolved column
positions — the schema's extra fields and column order are immaterial
beyond those positions. -/
theorem load_approaches_resolves (cad_fields : List String)
    (cad_data : List (List String)) (iDes iCd iDist iVrel : Nat)
    (cas : List CloseApproach)
    (hDes : listIndex "des" cad_fields = some iDes)
    (hCd : listIndex "cd" cad_fields = some iCd)
    (hDist : listIndex "dist" cad_fields = some iDist)
    (hVrel : listIndex "v_rel" cad_fields = some iVrel)
    (hok : load_approaches cad_fields cad_data = .ok cas) :
    cas.length = cad_data.length ∧
    ∀ (k : Nat) (row : List String), cad_data[k]? = some row →
      ∃ des t di v ca,
        row[iDes]? = some des ∧ row[iCd]? = some t ∧
        row[iDist]? = some di ∧ row[iVrel]? = some v ∧
        construct_approach ⟨some des, some t, some di, some v⟩ = .ok ca ∧
        cas[k]? = some ca := by
  simp only [load_approaches, hDes, hCd, hDist, hVrel] at hok
  exact loadRows_ok_spec iDes iCd iDist iVrel cad_data cas hok

/-- C5 witness: the spec's round-trip example — schema
`des, cd, dist, v_rel, extra` resolves to positions 0-3, and the single
row yields one approach with designation `2015 AB`, time
2020-01-01 06:00, distance 0.3, velocity 5.5. -/
theorem load_approaches_resolves_witness :
    (listIndex "des" exFields = some 0 ∧ listIndex "cd" exFields = some 1 ∧
     listIndex "dist" exFields = some 2 ∧ listIndex "v_rel" exFields = some 3) ∧
    load_approaches exFields exData = .ok [exApproach] ∧
    exApproach = ⟨"2015 AB", ⟨2020, 1, 1, 6, 0⟩, 3 / 10, 11 / 2, none⟩ ∧
    ([exApproach].length = exData.length ∧
     ∀ (k : Nat) (row : List String), exData[k]? = some row →
       ∃ des t di v ca,
         row[0]? = some des ∧ row[1]? = some t ∧
         row[2]? = some di ∧ row[3]? = some v ∧
         construct_approach ⟨some des, some t, some di, some v⟩ = .ok ca ∧
         [exApproach][k]? = some ca) := by
  have h3 : decToRat (true, 0, 3, 1) = (3 : ℚ) / 10 := by norm_num [decToRat]
  have h5 : decToRat (true, 5, 5, 1) = (11 : ℚ) / 2 := by norm_num [decToRat]
  have hload : load_approaches exFields exData = .ok [exApproach] := by
    have hload0 : load_approaches exFields exData =
        .ok [⟨"2015 AB", ⟨2020, 1, 1, 6, 0⟩,
              decToRat (true, 0, 3, 1), decToRat (true, 5, 5, 1), none⟩] := rfl
    rw [hload0, h3, h5]
    rfl
  exact ⟨⟨rfl, rfl, rfl, rfl⟩, hload, rfl,
    load_approaches_resolves exFields exData 0 1 2 3 [exApproach]
      rfl rfl rfl rfl hload⟩

/-- First-occurrence semantics of the Python `list.index` lookup: when
`x` occurs right after a prefix that avoids it, its index is the prefix
length, whatever comes later. -/
theorem listIndex_first (x : String) (pre post : List String) (h : x ∉ pre) :
    listIndex x (pre ++ x :: post) = some pre.length := by
  induction pre with
  | nil => simp [listIndex]
  | cons y ys ih =>
    have hy : ¬(y = x) := by
      intro he
      subst he
      exact h (List.mem_cons_self y ys)
    have hys : x ∉ ys := fun hm => h (List.mem_cons_of_mem _ hm)
    simp [listIndex, hy, ih hys]

/-- C10: when the schema lists one of the four required field names more
than once, a successful load takes that field of every row from the
column position of the first occurrence of the name — later duplicate
columns are ignored. Stated for each of the four names: if the schema is
a prefix avoiding the name, then the name, then anything (which may
repeat the name), every returned approach reads that field from the
prefix-length position of its row. -/
theorem load_approaches_first_occurrence (cad_fields : List String)
    (cad_data : List (List String)) (cas : List CloseApproach)
    (hok : load_approaches cad_fields cad_data = .ok cas)
    (pre post : List String) :
    (cad_fields = pre ++ "des" :: post → "des" ∉ pre →
      ∀ (k : Nat) (row : List String) (ca : CloseApproach),
        cad_data[k]? = some row → cas[k]? = some ca →
        ∃ cell, row[pre.length]? = some cell ∧ ca._designation = cell) ∧
    (cad_fields = pre ++ "cd" :: post → "cd" ∉ pre →
      ∀ (k : Nat) (row : List String) (ca : CloseApproach),
        cad_data[k]? = some row → cas[k]? = some ca →
        ∃ cell, row[pre.length]? = some cell ∧ cd_to_datetime cell = some ca.time) ∧
    (cad_fields = pre ++ "dist" :: post → "dist" ∉ pre →
      ∀ (k : Nat) (row : List String) (ca : CloseApproach),
        cad_data[k]? = some row → cas[k]? = some ca →
        ∃ cell, row[pre.length]? = some cell ∧ parseDecimal cell = some ca.distance) ∧
    (cad_fields = pre ++ "v_rel" :: post → "v_rel" ∉ pre →
      ∀ (k : Nat) (row : List String) (ca : CloseApproach),
        cad_data[k]? = some row → cas[k]? = some ca →
        ∃ cell, row[pre.length]? = some cell ∧ parseDecimal cell = some ca.velocity) := by
  obtain ⟨iDes, iCd, iDist, iVrel, h1, h2, h3, h4, hrows⟩ :=
    load_approaches_ok_inv cad_fields cad_data cas hok
  obtain ⟨_, hspec⟩ := loadRows_ok_spec iDes iCd iDist iVrel cad_data cas hrows
  refine ⟨?_, ?_, ?_, ?_⟩
  · intro hf hpre k row ca hrow hca
    obtain ⟨des, t, di, v, ca', g1, g2, g3, g4, gc, gk⟩ := hspec k row hrow
    have hidx : iDes = pre.length := by
      rw [hf, listIndex_first "des" pre post hpre] at h1
      injection h1 with h1
      exact h1.symm
    have hca' : ca' = ca := by
      rw [gk] at hca
      injection hca
    subst hca'
    subst hidx
    exact ⟨des, g1, (construct_approach_fields des t di v ca' gc).1⟩
  · intro hf hpre k row ca hrow hca
    obtain ⟨des, t, di, v, ca', g1, g2, g3, g4, gc, gk⟩ := hspec k row hrow
    have hidx : iCd = pre.length := by
      rw [hf, listIndex_first "cd" pre post hpre] at h2
      injection h2 with h2
      exact h2.symm
    have hca' : ca' = ca := by
      rw [gk] at hca
      injection hca
    subst hca'
    subst hidx
    refine ⟨t, g2, ?_⟩
    have := (construct_approach_fields des t di v ca' gc).2.1
    rw [this]
  · intro hf hpre k row ca hrow hca
    obtain ⟨des, t, di, v, ca', g1, g2, g3, g4, gc, gk⟩ := hspec k row hrow
    have hidx : iDist = pre.length := by
      rw [hf, listIndex_first "dist" pre post hpre] at h3
      injection h3 with h3
      exact h3.symm
    have hca' : ca' = ca := by
      rw [gk] at hca
      injection hca
    subst hca'
    subst hidx
    refine ⟨di, g3, ?_⟩
    have := (construct_approach_fields des t di v ca' gc).2.2.1
    rw [this]
  · intro hf hpre k row ca hrow hca
    obtain ⟨des, t, di, v, ca', g1, g2, g3, g4, gc, gk⟩ := hspec k row hrow
    have hidx : iVrel = pre.length := by
      rw [hf, listIndex_first "v_rel" pre post hpre] at h4
      injection h4 with h4
      exact h4.symm
    have hca' : ca' = ca := by
      rw [gk] at hca
      injection hca
    subst hca'
    subst hidx
    refine ⟨v, g4, ?_⟩
    have := (construct_approach_fields des t di v ca' gc).2.2.2.1
    rw [this]

/-- C10 witness: with schema `des, cd, dist, v_rel, des` and a row whose
first and last cells are `A` and `B`, the loaded approach's designation is
`A`, the cell of the first `des` column. -/
theorem load_approaches_first_occurrence_witness :
    load_approaches dupFields dupData = .ok [dupApproach] ∧
    dupFields = [] ++ "des" :: ["cd", "dist", "v_rel", "des"] ∧
    (∃ cell, (["A", "2020-Jan-01 06:00", "0.3", "5.5", "B"] : List String)[(0 : Nat)]? =
        some cell ∧ dupApproach._designation = cell) ∧
    dupApproach._designation = "A" := by
  have h3 : decToRat (true, 0, 3, 1) = (3 : ℚ) / 10 := by norm_num [decToRat]
  have h5 : decToRat (true, 5, 5, 1) = (11 : ℚ) / 2 := by norm_num [decToRat]
  have hload : load_approaches dupFields dupData = .ok [dupApproach] := by
    have hload0 : load_approaches dupFields dupData =
        .ok [⟨"A", ⟨2020, 1, 1, 6, 0⟩,
              decToRat (true, 0, 3, 1), decToRat (true, 5, 5, 1), none⟩] := rfl
    rw [hload0, h3, h5]
    rfl
  refine ⟨hload, rfl, ?_, rfl⟩
  exact (load_approaches_first_occurrence dupFields dupData [dupApproach] hload []
    ["cd", "dist", "v_rel", "des"]).1 rfl (by simp) 0
    ["A", "2020-Jan-01 06:00", "0.3", "5.5", "B"] dupApproach rfl rfl
